import Mathlib

/-!
Verification development for the NewsMaster pipeline core
(`src/pipeline/run.py` and `src/pipeline/aggregate_map_data.py`).

The Python source is shallowly embedded: dictionaries become association
lists (preserving CPython's insertion-order iteration semantics),
`defaultdict(int)` counters become association lists queried with a
default of `0`, floats become rationals (`ℚ`), and the external data
tables (pycountry / geonamescache) become function parameters.  All
embedded definitions keep the source's names where Lean allows it.

Python string primitives (`lower`, `upper`, `strip`, `split`,
`replace`, `rstrip`) are embedded as structurally recursive functions on
the character list of the string, so every definition evaluates inside
the kernel; they agree with the Python operations on the ASCII texts the
pipeline handles.
-/

/-! ## String helpers mirroring the Python primitives used by the source -/

/-- Python `str.lower()` (ASCII fragment). -/
def pyLower (s : String) : String := ⟨s.toList.map Char.toLower⟩

/-- Python `str.upper()` (ASCII fragment). -/
def pyUpper (s : String) : String := ⟨s.toList.map Char.toUpper⟩

/-- Python `str.strip()`: drop leading and trailing whitespace. -/
def pyStrip (s : String) : String :=
  ⟨((s.toList.dropWhile Char.isWhitespace).reverse.dropWhile Char.isWhitespace).reverse⟩

/-- Helper for `pySplit`: accumulate the current word (reversed) while
scanning. -/
def wordsAux : List Char → List Char → List String
  | [], acc => if acc = [] then [] else [⟨acc.reverse⟩]
  | c :: cs, acc =>
    if c.isWhitespace then
      (if acc = [] then wordsAux cs [] else ⟨acc.reverse⟩ :: wordsAux cs [])
    else wordsAux cs (c :: acc)

/-- Python `str.split()` with no argument: split on whitespace runs,
dropping empty fragments. -/
def pySplit (s : String) : List String := wordsAux s.toList []

/-- Python `str.replace(c, '')` for a single-character pattern: remove
every occurrence of the character. -/
def removeAll (c : Char) (s : String) : String :=
  ⟨s.toList.filter (fun x => x ≠ c)⟩

/-- Python `str.rstrip('.')`: drop trailing period characters. -/
def rstripDots (s : String) : String :=
  ⟨(s.toList.reverse.dropWhile (fun c => c = '.')).reverse⟩

/-- Python regex `\w` on the ASCII fragment: letters, digits, underscore. -/
def isWordChar (c : Char) : Bool :=
  c.isAlpha || c.isDigit || c = '_'

/-- Whether the regex word-boundary assertion `\b` holds at position `i` of
`s` (between `s[i-1]` and `s[i]`): exactly one adjacent side is a word
character, a missing side counting as non-word. -/
def boundaryAt (s : List Char) (i : Nat) : Bool :=
  let before :=
    match i with
    | 0 => false
    | Nat.succ j =>
      match s.get? j with
      | some c => isWordChar c
      | none => false
  let after :=
    match s.get? i with
    | some c => isWordChar c
    | none => false
  before != after

/-- `re.search(r'\b' + re.escape(shorter) + r'\b', longer)` from
`are_entities_similar` in `src/pipeline/run.py`: the literal `shorter`
occurs in `longer` with word boundaries on both sides. -/
def wordBoundContains (longer shorter : String) : Bool :=
  let L := longer.toList
  let S := shorter.toList
  (List.range (L.length + 1)).any (fun i =>
    decide ((L.drop i).take S.length = S) && boundaryAt L i && boundaryAt L (i + S.length))

/-! ## Entity similarity (`src/pipeline/run.py`, lines 95–197) -/

/-- `are_similar_person_names` from `src/pipeline/run.py`: split both names,
strip trailing periods and lowercase each part, drop single-letter parts
(middle initials); equal significant sequences, or a set inclusion of one
side's significant parts in the other's parts with matching first and last
significant parts, count as similar. -/
def are_similar_person_names (name1 name2 : String) : Bool :=
  let parts1 := (pySplit name1).map (fun p => pyLower (rstripDots p))
  let parts2 := (pySplit name2).map (fun p => pyLower (rstripDots p))
  let sig1 := parts1.filter (fun p => 1 < p.length)
  let sig2 := parts2.filter (fun p => 1 < p.length)
  if sig1 = sig2 then true
  else if (sig1.all fun p => decide (p ∈ parts2)) || (sig2.all fun p => decide (p ∈ parts1)) then
    if 2 ≤ sig1.length && 2 ≤ sig2.length then
      sig1.head? == sig2.head? && sig1.getLast? == sig2.getLast?
    else false
  else false

/-- The fixed stop-word set skipped by the abbreviation heuristic. -/
def skipWords : List String := ["of", "the", "and", "in", "for", "to", "with"]

/-- Characters of the cleaned abbreviation match, in order, the first
letters (uppercased) of the words. -/
def matchFirstLetters : List Char → List String → Bool
  | [], [] => true
  | c :: cs, w :: ws =>
    (match w.toList with
     | [] => false
     | h :: _ => h.toUpper == c) && matchFirstLetters cs ws
  | _, _ => false

/-- `is_likely_abbreviation` from `src/pipeline/run.py`: uppercase the short
entity and remove periods and spaces; its characters must match the first
letters of the long entity's words, either of all words or of the words
remaining after removing the stop-word set. -/
def is_likely_abbreviation (shortEntity longEntity : String) : Bool :=
  let shortClean := removeAll ' ' (removeAll '.' (pyUpper shortEntity))
  let longWords := pySplit longEntity
  if shortClean.length = longWords.length then
    matchFirstLetters shortClean.toList longWords
  else
    let significantWords := longWords.filter (fun w => decide (pyLower w ∉ skipWords))
    if shortClean.length = significantWords.length then
      matchFirstLetters shortClean.toList significantWords
    else false

/-- `are_entities_similar` from `src/pipeline/run.py`: case-insensitive
equality, then word-boundary containment with a word-count or overlap
check, then the person-name heuristic, then the abbreviation heuristic. -/
def are_entities_similar (entity1 entity2 : String) : Bool :=
  let e1l := pyStrip (pyLower entity1)
  let e2l := pyStrip (pyLower entity2)
  if e1l = e2l then true
  else
    let shorter := if e1l.length < e2l.length then e1l else e2l
    let longer := if e1l.length < e2l.length then e2l else e1l
    let shorterE := if e1l.length < e2l.length then entity1 else entity2
    let longerE := if e1l.length < e2l.length then entity2 else entity1
    let sp := pySplit shorter
    let lp := pySplit longer
    if wordBoundContains longer shorter &&
        (decide (lp.length ≤ sp.length + 2) ||
         decide (sp.length ≤ ((sp.dedup.filter (fun w => decide (w ∈ lp))).length))) then
      true
    else if are_similar_person_names entity1 entity2 then true
    else if shorter.length ≤ 5 && 5 < longer.length &&
        is_likely_abbreviation shorterE longerE then true
    else false

example : are_entities_similar "EU" "European Union" = true := by decide
example : are_entities_similar "USA" "United States of America" = true := by decide
example : are_entities_similar "Donald Trump" "Donald J. Trump" = true := by decide
example : are_entities_similar "Barack Obama" "Obama" = true := by decide
example : are_entities_similar "Obama" "Obama Administration" = true := by decide
example : are_entities_similar "Barack Obama" "Obama Administration" = false := by decide

/-- C8: the entity-similarity predicate judges the spec's example pairs
similar: "EU" / "European Union" and "USA" / "United States of America"
through the abbreviation heuristic (the word-boundary containment and the
person-name heuristic both fail there, and the "USA" case needs the
stop-word "of" skipped), and "Donald Trump" / "Donald J. Trump" through
the person-name heuristic that strips single-letter middle-initial
tokens. -/
theorem claim_C8_similarity_examples :
    are_entities_similar "EU" "European Union" = true ∧
    is_likely_abbreviation "EU" "European Union" = true ∧
    wordBoundContains "european union" "eu" = false ∧
    are_similar_person_names "EU" "European Union" = false ∧
    are_entities_similar "USA" "United States of America" = true ∧
    is_likely_abbreviation "USA" "United States of America" = true ∧
    (pySplit "United States of America").length = 4 ∧
    ((pySplit "United States of America").filter
      (fun w => decide (pyLower w ∉ skipWords))).length = 3 ∧
    are_entities_similar "Donald Trump" "Donald J. Trump" = true ∧
    are_similar_person_names "Donald Trump" "Donald J. Trump" = true ∧
    wordBoundContains "donald j. trump" "donald trump" = false := by
  decide

/-! ## Articles and the entity data model (`src/pipeline/run.py`) -/

/-- A named-entity span as stored in an article's `ner` list. -/
structure NerEntity where
  entity : String
  label : String
deriving DecidableEq

/-- An article as consumed by the normalizer and the daily aggregator:
only the `providerId` and `ner` fields are read by the embedded code. -/
structure Article where
  providerId : String
  ner : List NerEntity
deriving DecidableEq

/-- Association-list lookup on the first matching key: the embedding of a
Python dictionary read. -/
def alookup {α β : Type} [DecidableEq α] (k : α) : List (α × β) → Option β
  | [] => none
  | (k', v) :: rest => if k' = k then some v else alookup k rest

/-- A counter dictionary (`Counter` / `defaultdict(int)`): an association
list in insertion order, absent keys counting as `0`. -/
abbrev CMap := List (String × Nat)

/-- Dictionary read with default `0`. -/
def CMap.get (m : CMap) (k : String) : Nat := (alookup k m).getD 0

/-- `m[k] += 1` on a counter dictionary: update the entry in place when
the key is present, append it with count 1 otherwise. -/
def CMap.bump : CMap → String → CMap
  | [], k => [(k, 1)]
  | (k', v) :: rest, k =>
    if k' = k then (k', v + 1) :: rest else (k', v) :: CMap.bump rest k

/-- `entity_counts_by_label[label][entity_text] += 1`: a dictionary from
label to counter, in insertion order. -/
def bumpLabel : List (String × CMap) → String → String → List (String × CMap)
  | [], lbl, t => [(lbl, [(t, 1)])]
  | (l, c) :: rest, lbl, t =>
    if l = lbl then (l, c.bump t) :: rest else (l, c) :: bumpLabel rest lbl t

/-- First pass of `global_entity_normalization` (`src/pipeline/run.py`,
lines 27–32): count every non-empty stripped entity text, grouped by
label. -/
def collectEntityCounts (arts : List Article) : List (String × CMap) :=
  arts.foldl
    (fun d a =>
      a.ner.foldl
        (fun d e =>
          let t := pyStrip e.entity
          if t = "" then d else bumpLabel d e.label t)
        d)
    []

/-- The similar group seeded at `e1` (`src/pipeline/run.py`, lines 47–53):
`e1` together with every other not-yet-processed entity of the list that
is similar to the seed. -/
def groupFor (allEntities processed : List String) (e1 : String) : List String :=
  e1 :: allEntities.filter
    (fun e2 => decide (e2 ≠ e1) && decide (e2 ∉ processed) && are_entities_similar e1 e2)

/-- The canonical form of a group (`src/pipeline/run.py`, lines 58–61): the
highest-frequency member, earliest position winning ties (Python's stable
descending sort followed by taking the head). -/
def pickCanonical (counts : String → Nat) : List String → String
  | [] => ""
  | e :: rest => rest.foldl (fun best x => if counts best < counts x then x else best) e

/-- The grouping loop of `global_entity_normalization`
(`src/pipeline/run.py`, lines 42–76): iterate the entity list, skip
already-processed entities, form the seed's group, and for groups of size
above one map every non-canonical member to the canonical form, marking
the whole group processed. -/
def mappingLoop (counts : String → Nat) (allEntities : List String) :
    List String → List String → List (String × String) → List (String × String)
  | [], _, acc => acc
  | e1 :: rest, processed, acc =>
    if e1 ∈ processed then mappingLoop counts allEntities rest processed acc
    else if 1 < (groupFor allEntities processed e1).length then
      mappingLoop counts allEntities rest (processed ++ groupFor allEntities processed e1)
        (acc ++
          ((groupFor allEntities processed e1).filter
              (fun e => decide (e ≠ pickCanonical counts (groupFor allEntities processed e1)))).map
            (fun e => (e, pickCanonical counts (groupFor allEntities processed e1))))
    else mappingLoop counts allEntities rest (processed ++ [e1]) acc

/-- The per-label replacement mapping: run the grouping loop over the
counter's keys in insertion order. -/
def buildLabelMapping (counter : CMap) : List (String × String) :=
  mappingLoop (fun s => counter.get s) (counter.map Prod.fst) (counter.map Prod.fst) [] []

/-- `replacement_mappings` of one run of `global_entity_normalization`:
`(entityText, label) ↦ canonicalText`, per-label mappings joined. -/
def buildReplacementMappings (arts : List Article) : List ((String × String) × String) :=
  (collectEntityCounts arts).foldl
    (fun acc lblc => acc ++ (buildLabelMapping lblc.2).map (fun p => ((p.1, lblc.1), p.2)))
    []

/-- Rewrite of a single stored entity (`src/pipeline/run.py`, lines
81–86): replace the text when `(text, label)` is a key of the mapping. -/
def applyNerEntity (m : List ((String × String) × String)) (e : NerEntity) : NerEntity :=
  match alookup (e.entity, e.label) m with
  | some c => { e with entity := c }
  | none => e

/-- Apply the replacement mapping to every stored occurrence in the
batch. -/
def applyReplacements (m : List ((String × String) × String)) (arts : List Article) :
    List Article :=
  arts.map (fun a => { a with ner := a.ner.map (applyNerEntity m) })

/-- `global_entity_normalization` from `src/pipeline/run.py`: build the
frequency-weighted replacement mapping across the whole batch and apply
it to every stored occurrence. -/
def global_entity_normalization (arts : List Article) : List Article :=
  applyReplacements (buildReplacementMappings arts) arts

/-- The concrete batch witnessing non-idempotence of re-running the
normalization: "Barack Obama" is similar to "Obama" (word-boundary
containment), "Obama" is similar to "Obama Administration", but
"Barack Obama" is not similar to "Obama Administration". -/
def obamaBatch : List Article :=
  [{ providerId := "p1",
     ner := [{ entity := "Barack Obama", label := "ORG" },
             { entity := "Obama", label := "ORG" },
             { entity := "Obama", label := "ORG" },
             { entity := "Obama Administration", label := "ORG" }] }]

example :
    buildReplacementMappings obamaBatch = [(("Barack Obama", "ORG"), "Obama")] := by decide

example :
    global_entity_normalization obamaBatch =
      [{ providerId := "p1",
         ner := [{ entity := "Obama", label := "ORG" },
                 { entity := "Obama", label := "ORG" },
                 { entity := "Obama", label := "ORG" },
                 { entity := "Obama Administration", label := "ORG" }] }] := by decide

example :
    global_entity_normalization (global_entity_normalization obamaBatch) =
      [{ providerId := "p1",
         ner := [{ entity := "Obama", label := "ORG" },
                 { entity := "Obama", label := "ORG" },
                 { entity := "Obama", label := "ORG" },
                 { entity := "Obama", label := "ORG" }] }] := by decide

/-! ## One run's replacement mapping never maps onto one of its own keys -/

lemma alookup_cons {α β : Type} [DecidableEq α] (k k' : α) (v : β) (tl : List (α × β)) :
    alookup k ((k', v) :: tl) = if k' = k then some v else alookup k tl := rfl

lemma alookup_mem {α β : Type} [DecidableEq α] {l : List (α × β)} {k : α} {c : β}
    (h : alookup k l = some c) : (k, c) ∈ l := by
  induction l with
  | nil => simp [alookup] at h
  | cons hd tl ih =>
    rcases hd with ⟨k', v⟩
    rw [alookup_cons] at h
    by_cases hk : k' = k
    · rw [if_pos hk] at h
      injection h with h
      subst hk; subst h
      exact List.mem_cons_self _ _
    · rw [if_neg hk] at h
      exact List.mem_cons_of_mem _ (ih h)

lemma alookup_none {α β : Type} [DecidableEq α] {l : List (α × β)} {k : α}
    (h : ∀ q ∈ l, q.1 ≠ k) : alookup k l = none := by
  induction l with
  | nil => rfl
  | cons hd tl ih =>
    rcases hd with ⟨k', v⟩
    rw [alookup_cons, if_neg (h (k', v) (List.mem_cons_self _ _))]
    exact ih (fun q hq => h q (List.mem_cons_of_mem _ hq))

lemma foldl_pick_mem (counts : String → Nat) :
    ∀ (l : List String) (b : String),
      l.foldl (fun best x => if counts best < counts x then x else best) b = b ∨
      l.foldl (fun best x => if counts best < counts x then x else best) b ∈ l := by
  intro l
  induction l with
  | nil => intro b; left; rfl
  | cons x xs ih =>
    intro b
    simp only [List.foldl_cons]
    rcases ih (if counts b < counts x then x else b) with h | h
    · rw [h]
      split
      · right; exact List.mem_cons_self _ _
      · left; rfl
    · right; exact List.mem_cons_of_mem _ h

lemma pickCanonical_mem (counts : String → Nat) (e : String) (rest : List String) :
    pickCanonical counts (e :: rest) ∈ e :: rest := by
  show rest.foldl (fun best x => if counts best < counts x then x else best) e ∈ e :: rest
  rcases foldl_pick_mem counts rest e with h | h
  · rw [h]; exact List.mem_cons_self _ _
  · exact List.mem_cons_of_mem _ h

lemma groupFor_not_processed {allE processed : List String} {e1 : String}
    (h1 : e1 ∉ processed) : ∀ g ∈ groupFor allE processed e1, g ∉ processed := by
  intro g hg
  rcases List.mem_cons.mp hg with rfl | hg
  · exact h1
  · have hpred := List.of_mem_filter hg
    simp only [Bool.and_eq_true, decide_eq_true_eq] at hpred
    exact hpred.1.2

lemma mappingLoop_kv (counts : String → Nat) (allE : List String) :
    ∀ (rem processed : List String) (acc : List (String × String)),
      (∀ p ∈ acc, p.1 ∈ processed ∧ p.2 ∈ processed) →
      (∀ p ∈ acc, ∀ q ∈ acc, q.1 ≠ p.2) →
      ∀ p ∈ mappingLoop counts allE rem processed acc,
        ∀ q ∈ mappingLoop counts allE rem processed acc, q.1 ≠ p.2 := by
  intro rem
  induction rem with
  | nil =>
    intro processed acc h1 h2
    simpa [mappingLoop] using h2
  | cons e1 rest ih =>
    intro processed acc h1 h2
    by_cases hp : e1 ∈ processed
    · simp only [mappingLoop, if_pos hp]
      exact ih processed acc h1 h2
    · simp only [mappingLoop, if_neg hp]
      have hgnp : ∀ g ∈ groupFor allE processed e1, g ∉ processed :=
        groupFor_not_processed hp
      have hcg : pickCanonical counts (groupFor allE processed e1) ∈
          groupFor allE processed e1 :=
        pickCanonical_mem counts e1 _
      by_cases hlen : 1 < (groupFor allE processed e1).length
      · rw [if_pos hlen]
        apply ih
        · intro p hpmem
          rcases List.mem_append.mp hpmem with h | h
          · obtain ⟨ha, hb⟩ := h1 p h
            exact ⟨List.mem_append_left _ ha, List.mem_append_left _ hb⟩
          · rcases List.mem_map.mp h with ⟨e, he, rfl⟩
            exact ⟨List.mem_append_right _ (List.mem_of_mem_filter he),
              List.mem_append_right _ hcg⟩
        · intro p hpmem q hqmem
          rcases List.mem_append.mp hpmem with hpa | hpn
          · rcases List.mem_append.mp hqmem with hqa | hqn
            · exact h2 p hpa q hqa
            · rcases List.mem_map.mp hqn with ⟨e, he, rfl⟩
              have hnp : e ∉ processed := hgnp e (List.mem_of_mem_filter he)
              have hps : p.2 ∈ processed := (h1 p hpa).2
              intro hcontra
              have he2 : e = p.2 := by simpa using hcontra
              exact hnp (by rw [he2]; exact hps)
          · rcases List.mem_map.mp hpn with ⟨e, he, rfl⟩
            rcases List.mem_append.mp hqmem with hqa | hqn
            · have hcnp : pickCanonical counts (groupFor allE processed e1) ∉ processed :=
                hgnp _ hcg
              have hq1 : q.1 ∈ processed := (h1 q hqa).1
              intro hcontra
              have he2 : q.1 = pickCanonical counts (groupFor allE processed e1) := by
                simpa using hcontra
              exact hcnp (by rw [← he2]; exact hq1)
            · rcases List.mem_map.mp hqn with ⟨e2, he2, rfl⟩
              have hne : e2 ≠ pickCanonical counts (groupFor allE processed e1) := by
                have := List.of_mem_filter he2
                simpa [decide_eq_true_eq] using this
              simpa using hne
      · rw [if_neg hlen]
        apply ih
        · intro p hpm
          obtain ⟨ha, hb⟩ := h1 p hpm
          exact ⟨List.mem_append_left _ ha, List.mem_append_left _ hb⟩
        · exact h2

lemma buildLabelMapping_kv (counter : CMap) :
    ∀ p ∈ buildLabelMapping counter, ∀ q ∈ buildLabelMapping counter, q.1 ≠ p.2 := by
  apply mappingLoop_kv
  · intro p hp; cases hp
  · intro p hp; cases hp

lemma mem_foldl_append {α β : Type} (f : β → List α) :
    ∀ (l : List β) (init : List α) (p : α),
      p ∈ l.foldl (fun acc b => acc ++ f b) init ↔ p ∈ init ∨ ∃ b ∈ l, p ∈ f b := by
  intro l
  induction l with
  | nil => intro init p; simp
  | cons b bs ih =>
    intro init p
    simp only [List.foldl_cons]
    rw [ih]
    constructor
    · rintro (h | ⟨b', hb', hp⟩)
      · rcases List.mem_append.mp h with h | h
        · exact Or.inl h
        · exact Or.inr ⟨b, List.mem_cons_self _ _, h⟩
      · exact Or.inr ⟨b', List.mem_cons_of_mem _ hb', hp⟩
    · rintro (h | ⟨b', hb', hp⟩)
      · exact Or.inl (List.mem_append_left _ h)
      · rcases List.mem_cons.mp hb' with rfl | hb'
        · exact Or.inl (List.mem_append_right _ hp)
        · exact Or.inr ⟨b', hb', hp⟩

lemma bumpLabel_map_fst (d : List (String × CMap)) (l : String) (t : String) :
    (bumpLabel d l t).map Prod.fst =
      if l ∈ d.map Prod.fst then d.map Prod.fst else d.map Prod.fst ++ [l] := by
  induction d with
  | nil => simp [bumpLabel]
  | cons hd tl ih =>
    rcases hd with ⟨l', c⟩
    simp only [bumpLabel]
    by_cases h : l' = l
    · subst h
      rw [if_pos rfl]
      simp only [List.map_cons]
      rw [if_pos (List.mem_cons_self _ _)]
    · rw [if_neg h]
      simp only [List.map_cons]
      rw [ih]
      by_cases h2 : l ∈ tl.map Prod.fst
      · rw [if_pos h2, if_pos (List.mem_cons_of_mem _ h2)]
      · have hnotin : l ∉ l' :: List.map Prod.fst tl := by
          intro hmem
          rcases List.mem_cons.mp hmem with rfl | hmem
          · exact h rfl
          · exact h2 hmem
        rw [if_neg h2, if_neg hnotin]
        rfl

lemma bumpLabel_nodup {d : List (String × CMap)} (h : (d.map Prod.fst).Nodup)
    (l : String) (t : String) : ((bumpLabel d l t).map Prod.fst).Nodup := by
  rw [bumpLabel_map_fst]
  split
  · exact h
  · next hne =>
    refine List.nodup_append.mpr ⟨h, List.nodup_singleton _, ?_⟩
    intro a ha hb
    rcases List.mem_singleton.mp hb with rfl
    exact hne ha

lemma foldl_preserve {α β : Type} {P : α → Prop} (f : α → β → α)
    (hf : ∀ s x, P s → P (f s x)) :
    ∀ (l : List β) (s : α), P s → P (l.foldl f s) := by
  intro l
  induction l with
  | nil => intro s hs; exact hs
  | cons x xs ih => intro s hs; exact ih _ (hf s x hs)

lemma collectEntityCounts_labels_nodup (arts : List Article) :
    ((collectEntityCounts arts).map Prod.fst).Nodup := by
  unfold collectEntityCounts
  have hstep : ∀ (d : List (String × CMap)) (a : Article),
      (d.map Prod.fst).Nodup →
      ((a.ner.foldl
          (fun d e =>
            let t := pyStrip e.entity
            if t = "" then d else bumpLabel d e.label t)
          d).map Prod.fst).Nodup := by
    intro d a hd
    refine foldl_preserve (P := fun d : List (String × CMap) => (d.map Prod.fst).Nodup)
      _ ?_ a.ner d hd
    intro d' e hd'
    dsimp only
    split
    · exact hd'
    · exact bumpLabel_nodup hd' _ _
  exact foldl_preserve (P := fun d : List (String × CMap) => (d.map Prod.fst).Nodup)
    _ hstep arts [] (by simp)

lemma nodup_fst_eq {α β : Type} :
    ∀ (l : List (α × β)), (l.map Prod.fst).Nodup →
      ∀ b1 b2 : α × β, b1 ∈ l → b2 ∈ l → b1.1 = b2.1 → b1 = b2 := by
  intro l
  induction l with
  | nil =>
    intro _ b1 b2 h1 _ _
    cases h1
  | cons hd tl ih =>
    intro h b1 b2 h1 h2 he
    rw [List.map_cons, List.nodup_cons] at h
    rcases List.mem_cons.mp h1 with he1 | he1
    · rcases List.mem_cons.mp h2 with he2 | he2
      · rw [he1, he2]
      · exfalso
        have hin : b2.1 ∈ tl.map Prod.fst := List.mem_map_of_mem _ he2
        rw [← he, he1] at hin
        exact h.1 hin
    · rcases List.mem_cons.mp h2 with he2 | he2
      · exfalso
        have hin : b1.1 ∈ tl.map Prod.fst := List.mem_map_of_mem _ he1
        rw [he, he2] at hin
        exact h.1 hin
      · exact ih h.2 b1 b2 he1 he2 he

lemma buildReplacementMappings_kv (arts : List Article) :
    ∀ p ∈ buildReplacementMappings arts, ∀ q ∈ buildReplacementMappings arts,
      q.1 ≠ (p.2, p.1.2) := by
  intro p hp q hq
  unfold buildReplacementMappings at hp hq
  rw [mem_foldl_append] at hp hq
  rcases hp with h | ⟨b1, hb1, hp⟩
  · cases h
  rcases hq with h | ⟨b2, hb2, hq⟩
  · cases h
  rcases List.mem_map.mp hp with ⟨p0, hp0, rfl⟩
  rcases List.mem_map.mp hq with ⟨q0, hq0, rfl⟩
  intro hcontra
  have hq1 : q0.1 = p0.2 := by
    have := congrArg Prod.fst hcontra
    simpa using this
  have hlb : b1.1 = b2.1 := by
    have := congrArg Prod.snd hcontra
    simpa using this.symm
  have hb12 : b1 = b2 :=
    nodup_fst_eq _ (collectEntityCounts_labels_nodup arts) b1 b2 hb1 hb2 hlb
  subst hb12
  exact buildLabelMapping_kv b1.2 p0 hp0 q0 hq0 hq1

lemma applyNerEntity_idem {M : List ((String × String) × String)}
    (h : ∀ p ∈ M, ∀ q ∈ M, q.1 ≠ (p.2, p.1.2)) (e : NerEntity) :
    applyNerEntity M (applyNerEntity M e) = applyNerEntity M e := by
  cases hl : alookup (e.entity, e.label) M with
  | none => simp [applyNerEntity, hl]
  | some c =>
    have hmem : ((e.entity, e.label), c) ∈ M := alookup_mem hl
    have hnone : alookup (c, e.label) M = none := by
      apply alookup_none
      intro q hq
      exact h _ hmem q hq
    simp [applyNerEntity, hl, hnone]

lemma map_idem {α : Type} {f : α → α} (hf : ∀ a, f (f a) = f a) :
    ∀ l : List α, (l.map f).map f = l.map f := by
  intro l
  induction l with
  | nil => rfl
  | cons x xs ih => simp only [List.map_cons, hf, ih]

/-- C10: within one run of `global_entity_normalization`, no canonical
value of the replacement mapping occurs as a key of the mapping for the
same label (each entity text joins at most one group, grouped entities
being excluded from all later groups), so applying the built mapping a
second time to any stored entity changes nothing. -/
theorem claim_C10_single_run_mapping_fixpoint (arts : List Article) :
    (∀ p ∈ buildReplacementMappings arts, ∀ q ∈ buildReplacementMappings arts,
        q.1 ≠ (p.2, p.1.2)) ∧
    ∀ e, applyNerEntity (buildReplacementMappings arts)
        (applyNerEntity (buildReplacementMappings arts) e) =
      applyNerEntity (buildReplacementMappings arts) e :=
  ⟨buildReplacementMappings_kv arts,
   fun e => applyNerEntity_idem (buildReplacementMappings_kv arts) e⟩

/-- Witness for C10: on the concrete `obamaBatch`, the mapping contains
`("Barack Obama", "ORG") ↦ "Obama"` and its value is not a key, so a
second application of the same mapping leaves the rewritten entity
unchanged. -/
theorem claim_C10_single_run_mapping_fixpoint_witness :
    (("Barack Obama", "ORG") : String × String) ≠ ("Obama", "ORG") ∧
    applyNerEntity (buildReplacementMappings obamaBatch)
        (applyNerEntity (buildReplacementMappings obamaBatch)
          { entity := "Barack Obama", label := "ORG" }) =
      applyNerEntity (buildReplacementMappings obamaBatch)
        { entity := "Barack Obama", label := "ORG" } :=
  ⟨(claim_C10_single_run_mapping_fixpoint obamaBatch).1
      ((("Barack Obama", "ORG"), "Obama")) (by decide)
      ((("Barack Obama", "ORG"), "Obama")) (by decide),
   (claim_C10_single_run_mapping_fixpoint obamaBatch).2 _⟩

/-- Counterexample for C2: on `obamaBatch`, the first run maps
"Barack Obama" to the canonical "Obama" and leaves "Obama Administration"
as a singleton, but the second run groups "Obama" with
"Obama Administration" and performs a further replacement, so running
`global_entity_normalization` twice differs from running it once. -/
theorem claim_C2_counterexample :
    global_entity_normalization (global_entity_normalization obamaBatch) ≠
      global_entity_normalization obamaBatch := by
  decide

/-- C2 (amended): re-running `global_entity_normalization` on its own
output can perform further replacements (see the counterexample), but one
run's replacement mapping is idempotent in application: applying the
mapping built by a run a second time to the batch changes nothing. -/
theorem claim_C2_amended_mapping_application_idempotent (arts : List Article) :
    applyReplacements (buildReplacementMappings arts)
        (applyReplacements (buildReplacementMappings arts) arts) =
      applyReplacements (buildReplacementMappings arts) arts := by
  have hkv := buildReplacementMappings_kv arts
  unfold applyReplacements
  apply map_idem
  intro a
  rcases a with ⟨pid, ner⟩
  show ({ providerId := pid, ner := (ner.map _).map _ } : Article) = _
  rw [map_idem (fun e => applyNerEntity_idem hkv e) ner]

/-! ## Gazetteer resolver (`src/pipeline/aggregate_map_data.py`, lines 62–126) -/

/-- Result of `get_country_code_for_location`: `None`, a single alpha-3
code, or a tuple of codes for a region. -/
inductive LocResolution where
  | noMatch
  | single (code : String)
  | region (codes : List String)
deriving DecidableEq

/-- `EUROPEAN_COUNTRIES` from `src/pipeline/aggregate_map_data.py`. -/
def EUROPEAN_COUNTRIES : List String :=
  ["AUT", "BEL", "BGR", "HRV", "CYP", "CZE", "DNK", "EST", "FIN", "FRA",
   "DEU", "GRC", "HUN", "IRL", "ITA", "LVA", "LTU", "LUX", "MLT", "NLD",
   "POL", "PRT", "ROU", "SVK", "SVN", "ESP", "SWE", "GBR", "CHE", "NOR",
   "ISL", "LIE", "MDA", "MKD", "MNE", "SRB", "ALB", "AND", "BLR", "BIH",
   "UKR", "RUS"]

/-- `CARIBBEAN_COUNTRIES` from `src/pipeline/aggregate_map_data.py`. -/
def CARIBBEAN_COUNTRIES : List String :=
  ["ATG", "BHS", "BRB", "CUB", "DMA", "DOM", "GRD", "HTI", "JAM", "KNA",
   "LCA", "VCT", "TTO", "PRI", "VIR"]

/-- `REGION_COUNTRIES` from `src/pipeline/aggregate_map_data.py`. -/
def REGION_COUNTRIES : List (String × List String) :=
  [("europe", EUROPEAN_COUNTRIES), ("caribbean", CARIBBEAN_COUNTRIES)]

/-- `get_country_code_for_location` from `src/pipeline/aggregate_map_data.py`.
The pre-built external tables (`COUNTRY_NAME_TO_ISO3`, `CITY_TO_COUNTRY`,
pycountry's `search_fuzzy`) are parameters; the cascade itself is embedded:
falsy input resolves to nothing, the lookup key is the lower-cased,
stripped text, and regions are checked first, then country names, then
cities, then the fuzzy search (which, as in the source, receives the
original text). -/
def get_country_code_for_location
    (countryNames cities fuzzy : String → Option String)
    (locationName : String) : LocResolution :=
  if locationName = "" then .noMatch
  else
    match alookup (pyStrip (pyLower locationName)) REGION_COUNTRIES with
    | some members => .region members
    | none =>
      match countryNames (pyStrip (pyLower locationName)) with
      | some code => .single code
      | none =>
        match cities (pyStrip (pyLower locationName)) with
        | some code => .single code
        | none =>
          match fuzzy locationName with
          | some code => .single code
          | none => .noMatch

/-- The resolver lifted to possibly-non-string input (`None` in Python):
the `isinstance` guard resolves it to nothing. -/
def get_country_code_for_location_opt
    (countryNames cities fuzzy : String → Option String) :
    Option String → LocResolution
  | none => .noMatch
  | some s => get_country_code_for_location countryNames cities fuzzy s

/-- The list of country codes a resolution contributes. -/
def resCodes (r : String → LocResolution) (s : String) : List String :=
  match r s with
  | .noMatch => []
  | .single c => [c]
  | .region cs => cs

/-! ## Daily aggregation (`src/pipeline/aggregate_map_data.py`, lines 214–438) -/

/-- `process_article_entities` from `src/pipeline/aggregate_map_data.py`:
split an article's NER list into located country codes (paired with the
location text) and non-LOC entity texts, expanding region resolutions into
every member code. -/
def process_article_entities (r : String → LocResolution) (nerList : List NerEntity) :
    List (String × String) × List String :=
  nerList.foldl
    (fun acc e =>
      if e.entity = "" then acc
      else if e.label = "LOC" then
        match r e.entity with
        | .noMatch => acc
        | .single c => (acc.1 ++ [(c, e.entity)], acc.2)
        | .region cs => (acc.1 ++ cs.map (fun c => (c, e.entity)), acc.2)
      else if e.label = "PER" ∨ e.label = "ORG" ∨ e.label = "MISC" then
        (acc.1, acc.2 ++ [e.entity])
      else acc)
    ([], [])

/-- A nested dictionary `defaultdict(lambda: defaultdict(int))`. -/
abbrev NMap := List (String × CMap)

/-- Nested dictionary read with default `0`. -/
def NMap.get2 (m : NMap) (k1 k2 : String) : Nat :=
  CMap.get ((alookup k1 m).getD []) k2

/-- `m[k1][k2] += 1` on a nested counter dictionary. -/
def NMap.bump2 : NMap → String → String → NMap
  | [], k1, k2 => [(k1, [(k2, 1)])]
  | (k, c) :: rest, k1, k2 =>
    if k = k1 then (k, c.bump k2) :: rest else (k, c) :: NMap.bump2 rest k1 k2

/-- The per-date aggregation state of `process_single_date`: the mention
counters and matrices built during the single pass over the articles. -/
structure AggState where
  import_counts : CMap
  export_counts : CMap
  total_imports : Nat
  total_exports : Nat
  articles_per_country : CMap
  ner_counts : CMap
  country_related_entities : NMap
  country_coverage_matrix : NMap
  country_covering_matrix : NMap
deriving DecidableEq

/-- The state at the start of `process_single_date`: every counter and
matrix empty. -/
def initAggState : AggState := ⟨[], [], 0, 0, [], [], [], [], []⟩

/-- Lines 302–304: count a non-LOC entity equal to the target entity for
the source country. -/
def nerCountStep (topNer src : String) (st : AggState) (e : String) : AggState :=
  if e = topNer then { st with ner_counts := st.ner_counts.bump src } else st

/-- Lines 305–307: count a location entity whose text equals the target
entity for the resolved country. -/
def nerCountLocStep (topNer : String) (st : AggState) (le : String × String) : AggState :=
  if le.2 = topNer then { st with ner_counts := st.ner_counts.bump le.1 } else st

/-- Lines 319–327 of `src/pipeline/aggregate_map_data.py`: the import /
export / coverage / covering increments for one mentioned country of one
article, guarded by `mentioned_code != source_country_code`. -/
def mentionStep (src : String) (st : AggState) (m : String) : AggState :=
  if m ≠ src then
    { st with
      import_counts := st.import_counts.bump m
      total_imports := st.total_imports + 1
      export_counts := st.export_counts.bump src
      total_exports := st.total_exports + 1
      country_coverage_matrix := st.country_coverage_matrix.bump2 m src
      country_covering_matrix := st.country_covering_matrix.bump2 src m }
  else st

/-- Lines 330–334: accumulate the article's non-LOC entities into the
top-entity counter of one mentioned country, guarded by
`country_code != source_country_code`. -/
def entityStep (src : String) (others : List String) (st : AggState) (m : String) : AggState :=
  if m ≠ src then
    { st with country_related_entities :=
        others.foldl (fun nm e => nm.bump2 m e) st.country_related_entities }
  else st

/-- Line 312: the deduplicated set of country codes mentioned by an
article (Python set iteration order is unspecified; all uses commute, so
any duplicate-free enumeration is faithful). -/
def mentionedCountryCodes (locs : List (String × String)) : List String :=
  (locs.map Prod.fst).dedup

/-- The per-article body of the aggregation loop of `process_single_date`
(lines 285–334): resolve the source country from the provider map
(articles with unknown providers are skipped), count the article, count
target-entity mentions, and run the mention and entity accumulation loops
over the deduplicated mentioned countries. -/
def processArticle (r : String → LocResolution) (pmap : List (String × String))
    (topNer : String) (st : AggState) (a : Article) : AggState :=
  match alookup (pyLower a.providerId) pmap with
  | none => st
  | some src =>
    if src = "" then st
    else if (process_article_entities r a.ner).1 = [] then
      (process_article_entities r a.ner).1.foldl (nerCountLocStep topNer)
        ((process_article_entities r a.ner).2.foldl (nerCountStep topNer src)
          { st with articles_per_country := st.articles_per_country.bump src })
    else
      (mentionedCountryCodes (process_article_entities r a.ner).1).foldl
        (entityStep src (process_article_entities r a.ner).2)
        ((mentionedCountryCodes (process_article_entities r a.ner).1).foldl
          (mentionStep src)
          ((process_article_entities r a.ner).1.foldl (nerCountLocStep topNer)
            ((process_article_entities r a.ner).2.foldl (nerCountStep topNer src)
              { st with articles_per_country := st.articles_per_country.bump src })))

/-- The whole aggregation loop over a date's articles. -/
def aggregateArticles (r : String → LocResolution) (pmap : List (String × String))
    (topNer : String) (arts : List Article) : AggState :=
  arts.foldl (processArticle r pmap topNer) initAggState

/-! ## Providers per country and the normalization schemes
(`src/pipeline/aggregate_map_data.py`, lines 347–403) -/

/-- `providers_per_country[country].add(provider_id)`: insert a provider id
into a country's provider set (insertion-ordered, duplicate-free). -/
def addProvider : List (String × List String) → String → String → List (String × List String)
  | [], c, p => [(c, [p])]
  | (c', ps) :: rest, c, p =>
    if c' = c then (c', if p ∈ ps then ps else ps ++ [p]) :: rest
    else (c', ps) :: addProvider rest c p

/-- Lines 351–356: the second pass over the articles collecting each
country's set of distinct contributing providers. -/
def providersPerCountry (pmap : List (String × String)) (arts : List Article) :
    List (String × List String) :=
  arts.foldl
    (fun m a =>
      match alookup (pyLower a.providerId) pmap with
      | none => m
      | some src => if src = "" then m else addProvider m src (pyLower a.providerId))
    []

/-- `providers_per_country.get(code, 0)`: distinct-provider count, zero
when the country has none. -/
def provCount (m : List (String × List String)) (c : String) : Nat :=
  ((alookup c m).getD []).length

/-- `providers_per_country.get(code, 1)` as used by
`process_foreign_press_data`: distinct-provider count with default 1. -/
def provCountD1 (m : List (String × List String)) (c : String) : Nat :=
  match alookup c m with
  | none => 1
  | some ps => ps.length

/-- `MIN_MENTIONS` from line 348. -/
def MIN_MENTIONS : Nat := 2

/-- Lines 361–365: the import distribution over the full country universe,
`import_counts[c] / total_imports`, all-zero when `total_imports = 0`. -/
def importDataOf (allCodes : List String) (ic : CMap) (totalImports : Nat) :
    List (String × ℚ) :=
  if 0 < totalImports then
    allCodes.map (fun c => (c, (ic.get c : ℚ) / (totalImports : ℚ)))
  else allCodes.map (fun c => (c, 0))

/-- Lines 369–377: per-country export ratio, the export count divided by
the country's distinct-provider count, zero when it has no providers. -/
def exportRatios (allCodes : List String) (ec : CMap)
    (ppc : List (String × List String)) : List (String × ℚ) :=
  allCodes.map (fun c =>
    (c, if 0 < provCount ppc c then (ec.get c : ℚ) / (provCount ppc c : ℚ) else 0))

/-- Line 380: `sum(export_ratios.values())`. -/
def totalExportRatio (allCodes : List String) (ec : CMap)
    (ppc : List (String × List String)) : ℚ :=
  ((exportRatios allCodes ec ppc).map Prod.snd).sum

/-- Lines 380–384: the export ratios globally renormalized to sum to 1,
all-zero when the ratio total is zero. -/
def exportDataOf (allCodes : List String) (ec : CMap)
    (ppc : List (String × List String)) : List (String × ℚ) :=
  if 0 < totalExportRatio allCodes ec ppc then
    (exportRatios allCodes ec ppc).map
      (fun p => (p.1, p.2 / totalExportRatio allCodes ec ppc))
  else allCodes.map (fun c => (c, 0))

/-- Lines 388–396: per-country dominant-entity ratio, mention count over
provider count, zeroed below the `MIN_MENTIONS` floor or without
providers. -/
def nerRatios (allCodes : List String) (nc : CMap)
    (ppc : List (String × List String)) : List (String × ℚ) :=
  allCodes.map (fun c =>
    (c, if 0 < provCount ppc c ∧ MIN_MENTIONS ≤ nc.get c
        then (nc.get c : ℚ) / (provCount ppc c : ℚ) else 0))

/-- Line 399: `sum(ner_ratios.values())`. -/
def totalNerRatio (allCodes : List String) (nc : CMap)
    (ppc : List (String × List String)) : ℚ :=
  ((nerRatios allCodes nc ppc).map Prod.snd).sum

/-- Lines 399–403: the dominant-entity ratios globally renormalized. -/
def nerDataOf (allCodes : List String) (nc : CMap)
    (ppc : List (String × List String)) : List (String × ℚ) :=
  if 0 < totalNerRatio allCodes nc ppc then
    (nerRatios allCodes nc ppc).map (fun p => (p.1, p.2 / totalNerRatio allCodes nc ppc))
  else allCodes.map (fun c => (c, 0))

/-! ## Top entities and foreign-press data
(`src/pipeline/aggregate_map_data.py`, lines 405–538) -/

/-- Stable insertion for a descending sort: an element goes before the
first element whose key does not exceed its own, so equal keys keep their
original order, matching Python's stable `sort(reverse=True)`. -/
def insertDesc {α : Type} (key : α → ℚ) (x : α) : List α → List α
  | [] => [x]
  | y :: ys => if key y ≤ key x then x :: y :: ys else y :: insertDesc key x ys

/-- Stable descending sort by a rational key. -/
def sortByDesc {α : Type} (key : α → ℚ) (l : List α) : List α :=
  l.foldr (insertDesc key) []

/-- `Counter.most_common(n)`: entries stably sorted by descending count,
first `n` taken. -/
def most_common (counter : CMap) (n : Nat) : List (String × Nat) :=
  (sortByDesc (fun p => (p.2 : ℚ)) counter).take n

/-- Lines 406–422: per country, the 10 highest-count related entities with
each entity's share of the top-10 total. -/
def country_top_entities (cre : NMap) : List (String × List (String × Nat × ℚ)) :=
  cre.foldl
    (fun acc cc =>
      if most_common cc.2 10 ≠ [] then
        if 0 < ((most_common cc.2 10).map Prod.snd).sum then
          acc ++ [(cc.1, (most_common cc.2 10).map
            (fun ec => (ec.1, ec.2, (ec.2 : ℚ) / (((most_common cc.2 10).map Prod.snd).sum : ℚ))))]
        else acc
      else acc)
    []

/-- Lines 461–468: the raw `coveredBy` row of one featured country, each
covering country's count divided by its provider count (default 1). -/
def coveredByRawFor (covMat : NMap) (ppc : List (String × List String))
    (country : String) : List (String × ℚ) :=
  ((alookup country covMat).getD []).map
    (fun bc => (bc.1, (bc.2 : ℚ) / (provCountD1 ppc bc.1 : ℚ)))

/-- The pre-renormalization `total_coverage` of one featured country. -/
def totalCoverageFor (covMat : NMap) (ppc : List (String × List String))
    (country : String) : ℚ :=
  ((coveredByRawFor covMat ppc country).map Prod.snd).sum

/-- Lines 474–476: the `coveredBy` row renormalized to sum to 1 when its
total is positive, otherwise left as is. -/
def coveredByFor (covMat : NMap) (ppc : List (String × List String))
    (country : String) : List (String × ℚ) :=
  if 0 < totalCoverageFor covMat ppc country then
    (coveredByRawFor covMat ppc country).map
      (fun p => (p.1, p.2 / totalCoverageFor covMat ppc country))
  else coveredByRawFor covMat ppc country

/-- Lines 487–494: the raw `covering` row of one covering country, each
covered country's count divided by the covering country's own provider
count (default 1). -/
def coveringRawFor (covnMat : NMap) (ppc : List (String × List String))
    (country : String) : List (String × ℚ) :=
  ((alookup country covnMat).getD []).map
    (fun bc => (bc.1, (bc.2 : ℚ) / (provCountD1 ppc country : ℚ)))

/-- The pre-renormalization `total_covering` of one covering country. -/
def totalCoveringFor (covnMat : NMap) (ppc : List (String × List String))
    (country : String) : ℚ :=
  ((coveringRawFor covnMat ppc country).map Prod.snd).sum

/-- Lines 499–501: the `covering` row renormalized to sum to 1 when its
total is positive. -/
def coveringFor (covnMat : NMap) (ppc : List (String × List String))
    (country : String) : List (String × ℚ) :=
  if 0 < totalCoveringFor covnMat ppc country then
    (coveringRawFor covnMat ppc country).map
      (fun p => (p.1, p.2 / totalCoveringFor covnMat ppc country))
  else coveringRawFor covnMat ppc country

/-- One `country_coverage` entry: the (possibly renormalized) `coveredBy`
row and the `totalCoverage` scalar. -/
structure CoverageEntry where
  coveredBy : List (String × ℚ)
  totalCoverage : ℚ
deriving DecidableEq

/-- One `country_covering` entry. -/
structure CoveringEntry where
  covering : List (String × ℚ)
  totalCovering : ℚ
deriving DecidableEq

/-- Lines 457–481: `country_coverage` before the global ranking
renormalization, one entry per country of the universe. -/
def countryCoverageRaw (covMat : NMap) (ppc : List (String × List String))
    (allCodes : List String) : List (String × CoverageEntry) :=
  allCodes.map (fun c => (c, ⟨coveredByFor covMat ppc c, totalCoverageFor covMat ppc c⟩))

/-- Lines 483–506: `country_covering` before the global ranking
renormalization. -/
def countryCoveringRaw (covnMat : NMap) (ppc : List (String × List String))
    (allCodes : List String) : List (String × CoveringEntry) :=
  allCodes.map (fun c => (c, ⟨coveringFor covnMat ppc c, totalCoveringFor covnMat ppc c⟩))

/-- Line 509: `total_featured_activity`. -/
def totalFeaturedActivity (cc : List (String × CoverageEntry)) : ℚ :=
  (cc.map (fun p => p.2.totalCoverage)).sum

/-- Lines 509–512: divide every `totalCoverage` by the global total when
it is positive. -/
def renormCoverage (cc : List (String × CoverageEntry)) : List (String × CoverageEntry) :=
  if 0 < totalFeaturedActivity cc then
    cc.map (fun p => (p.1, { p.2 with totalCoverage := p.2.totalCoverage / totalFeaturedActivity cc }))
  else cc

/-- Line 514: `total_covering_activity`. -/
def totalCoveringActivity (cc : List (String × CoveringEntry)) : ℚ :=
  (cc.map (fun p => p.2.totalCovering)).sum

/-- Lines 514–517: divide every `totalCovering` by the global total when
it is positive. -/
def renormCovering (cc : List (String × CoveringEntry)) : List (String × CoveringEntry) :=
  if 0 < totalCoveringActivity cc then
    cc.map (fun p => (p.1, { p.2 with totalCovering := p.2.totalCovering / totalCoveringActivity cc }))
  else cc

/-- Lines 519–524: the featured ranking, countries with positive
`totalCoverage` sorted descending. -/
def featuredRankingsOf (cc : List (String × CoverageEntry)) : List (String × ℚ) :=
  sortByDesc Prod.snd
    ((cc.filter (fun p => decide (0 < p.2.totalCoverage))).map (fun p => (p.1, p.2.totalCoverage)))

/-- Lines 526–531: the covering ranking. -/
def coveringRankingsOf (cc : List (String × CoveringEntry)) : List (String × ℚ) :=
  sortByDesc Prod.snd
    ((cc.filter (fun p => decide (0 < p.2.totalCovering))).map (fun p => (p.1, p.2.totalCovering)))

/-- The `foreignPressData` section of a date's output. -/
structure ForeignPressData where
  countryCoverage : List (String × CoverageEntry)
  countryCovering : List (String × CoveringEntry)
  featuredRankings : List (String × ℚ)
  coveringRankings : List (String × ℚ)
deriving DecidableEq

/-- `process_foreign_press_data` from `src/pipeline/aggregate_map_data.py`. -/
def process_foreign_press_data (covMat covnMat : NMap)
    (ppc : List (String × List String)) (allCodes : List String) : ForeignPressData :=
  { countryCoverage := renormCoverage (countryCoverageRaw covMat ppc allCodes)
    countryCovering := renormCovering (countryCoveringRaw covnMat ppc allCodes)
    featuredRankings := featuredRankingsOf (renormCoverage (countryCoverageRaw covMat ppc allCodes))
    coveringRankings := coveringRankingsOf (renormCovering (countryCoveringRaw covnMat ppc allCodes)) }

/-! ## `process_single_date` (`src/pipeline/aggregate_map_data.py`, lines 214–438) -/

/-- A date's output snapshot. -/
structure DateResult where
  importData : List (String × ℚ)
  exportData : List (String × ℚ)
  nerData : List (String × ℚ)
  topEntitiesByCountry : List (String × List (String × Nat × ℚ))
  topNer : String
  foreignPressData : ForeignPressData
deriving DecidableEq

/-- The all-empty result returned for a missing input file or an empty
provider map (lines 243–256 and 259–273): empty dictionaries, empty
rankings, empty target entity. -/
def emptyDateResult : DateResult :=
  { importData := [], exportData := [], nerData := [],
    topEntitiesByCountry := [], topNer := "",
    foreignPressData := { countryCoverage := [], countryCovering := [],
                          featuredRankings := [], coveringRankings := [] } }

/-- The post-loop normalization phase of `process_single_date` (lines
344–438) applied to a successfully parsed article list. -/
def buildDateResult (r : String → LocResolution) (pmap : List (String × String))
    (allCodes : List String) (topNer : String) (arts : List Article) : DateResult :=
  { importData := importDataOf allCodes (aggregateArticles r pmap topNer arts).import_counts
      (aggregateArticles r pmap topNer arts).total_imports
    exportData := exportDataOf allCodes (aggregateArticles r pmap topNer arts).export_counts
      (providersPerCountry pmap arts)
    nerData := nerDataOf allCodes (aggregateArticles r pmap topNer arts).ner_counts
      (providersPerCountry pmap arts)
    topEntitiesByCountry :=
      country_top_entities (aggregateArticles r pmap topNer arts).country_related_entities
    topNer := topNer
    foreignPressData := process_foreign_press_data
      (aggregateArticles r pmap topNer arts).country_coverage_matrix
      (aggregateArticles r pmap topNer arts).country_covering_matrix
      (providersPerCountry pmap arts) allCodes }

/-- The three observable states of a date's `articles.json`. -/
inductive FileRead where
  | missing
  | malformed
  | ok (arts : List Article)

/-- The uncaught Python exception the embedding can surface. -/
inductive PyRuntimeError where
  | nameError
deriving DecidableEq

/-- The code after the `try` block of `process_single_date` (lines
344–438).  The local variable `articles` is only bound when `json.load`
succeeded; when the file was malformed the `except` clause caught the
decode error but left `articles` unbound, so the providers-per-country
loop at line 352 raises `NameError`. -/
def afterArticlesTry (r : String → LocResolution) (pmap : List (String × String))
    (allCodes : List String) (topNer : String) :
    Option (List Article) → Except PyRuntimeError DateResult
  | none => .error .nameError
  | some arts => .ok (buildDateResult r pmap allCodes topNer arts)

/-- `process_single_date` from `src/pipeline/aggregate_map_data.py`: an
empty provider map or a missing file returns the all-empty result; a
malformed file reaches the post-`try` code with `articles` unbound; a
parsed file is aggregated and normalized. -/
def process_single_date (r : String → LocResolution) (pmap : List (String × String))
    (allCodes : List String) (topNer : String) (file : FileRead) :
    Except PyRuntimeError DateResult :=
  if pmap = [] then .ok emptyDateResult
  else
    match file with
    | .missing => .ok emptyDateResult
    | .malformed => afterArticlesTry r pmap allCodes topNer none
    | .ok arts => afterArticlesTry r pmap allCodes topNer (some arts)

/-! ## Demo data grounding the concrete theorems (small instantiations of
the external pycountry / geonamescache tables and the provider registry) -/

/-- A small country-name table standing in for `COUNTRY_NAME_TO_ISO3`. -/
def demoCountryNames : String → Option String := fun k =>
  if k = "france" then some "FRA" else if k = "germany" then some "DEU" else none

/-- An empty lookup table. -/
def noTable : String → Option String := fun _ => none

/-- The resolver instantiated with the demo tables. -/
def demoResolver : String → LocResolution :=
  get_country_code_for_location demoCountryNames noTable noTable

/-- A small provider map standing in for `providers.json`. -/
def demoPmap : List (String × String) := [("lemonde", "FRA"), ("spiegel", "DEU")]

/-- A small country universe. -/
def demoCodes : List String := ["FRA", "DEU"]

/-- An article whose only mentioned country is its own source country. -/
def selfMentionArticle : Article :=
  { providerId := "LeMonde",
    ner := [{ entity := "France", label := "LOC" }, { entity := "NATO", label := "ORG" }] }

/-- An article from FRA mentioning DEU. -/
def crossMentionArticle : Article :=
  { providerId := "lemonde",
    ner := [{ entity := "Germany", label := "LOC" }, { entity := "NATO", label := "ORG" }] }

example :
    process_article_entities demoResolver selfMentionArticle.ner =
      ([("FRA", "France")], ["NATO"]) := by decide

example :
    (processArticle demoResolver demoPmap "X" initAggState crossMentionArticle).import_counts =
      [("DEU", 1)] := by decide

example :
    (processArticle demoResolver demoPmap "X" initAggState crossMentionArticle).export_counts =
      [("FRA", 1)] := by decide

example :
    NMap.get2 (processArticle demoResolver demoPmap "X" initAggState
      crossMentionArticle).country_coverage_matrix "DEU" "FRA" = 1 := by decide

example :
    NMap.get2 (processArticle demoResolver demoPmap "X" initAggState
      crossMentionArticle).country_related_entities "DEU" "NATO" = 1 := by decide

example :
    (processArticle demoResolver demoPmap "X" initAggState selfMentionArticle).total_imports
      = 0 := by decide

/-! ## C1: a mentioned country equal to the source contributes nothing -/

/-- C1: in the import/export loop of `process_single_date`, a mentioned
country code equal to the article's source country performs no increment
at all — not to `Import`, `Export`, `Coverage` or `Covering` — and the
whole loop over the mentioned set equals the loop over only the mentioned
codes different from the source. -/
theorem claim_C1_no_self_mention_increment (st : AggState) (src m : String)
    (l : List String) :
    (m = src → mentionStep src st m = st) ∧
    l.foldl (mentionStep src) st =
      (l.filter (fun c => decide (c ≠ src))).foldl (mentionStep src) st := by
  constructor
  · intro h
    subst h
    simp [mentionStep]
  · induction l generalizing st with
    | nil => rfl
    | cons c cs ih =>
      by_cases hc : c = src
      · rw [List.filter_cons, if_neg (by simp [hc]), List.foldl_cons]
        have h1 : mentionStep src st c = st := by simp [mentionStep, hc]
        rw [h1]
        exact ih st
      · rw [List.filter_cons, if_pos (by simp [hc]), List.foldl_cons, List.foldl_cons]
        exact ih (mentionStep src st c)

/-- Witness for C1 at a concrete state and country. -/
theorem claim_C1_no_self_mention_increment_witness :
    mentionStep "FRA" initAggState "FRA" = initAggState :=
  (claim_C1_no_self_mention_increment initAggState "FRA" "FRA" []).1 rfl

/-! ## C4: missing file versus malformed file -/

/-- C4: with a nonempty provider map, a missing `articles.json` makes
`process_single_date` return the all-empty result, but a malformed one
does not: the decode error is caught, yet the local variable `articles`
stays unbound and the providers-per-country loop after the `try` block
raises `NameError`, which propagates out of `process_single_date`. -/
theorem claim_C4_missing_vs_malformed_file :
    process_single_date demoResolver demoPmap demoCodes "X" .missing =
      .ok emptyDateResult ∧
    process_single_date demoResolver demoPmap demoCodes "X" .malformed =
      .error .nameError :=
  ⟨rfl, rfl⟩

/-! ## C6: the resolver cascade -/

/-- C6: the gazetteer resolver returns `NoMatch` on non-string or empty
input; otherwise it looks up the lower-cased, stripped text through the
cascade with the first matching stage winning: a known region name gives
that region's member list, else a country-name hit gives that single
country, else a city-name hit gives that city's country, else the fuzzy
country search decides (the source hands it the original text; pycountry's
`search_fuzzy` itself lower-cases and strips its query), else `NoMatch`. -/
theorem claim_C6_resolver_cascade (cn ct fz : String → Option String) (s : String) :
    get_country_code_for_location_opt cn ct fz none = .noMatch ∧
    get_country_code_for_location cn ct fz "" = .noMatch ∧
    (s ≠ "" →
      (∀ ms, alookup (pyStrip (pyLower s)) REGION_COUNTRIES = some ms →
        get_country_code_for_location cn ct fz s = .region ms) ∧
      (alookup (pyStrip (pyLower s)) REGION_COUNTRIES = none →
        (∀ c, cn (pyStrip (pyLower s)) = some c →
          get_country_code_for_location cn ct fz s = .single c) ∧
        (cn (pyStrip (pyLower s)) = none →
          (∀ c, ct (pyStrip (pyLower s)) = some c →
            get_country_code_for_location cn ct fz s = .single c) ∧
          (ct (pyStrip (pyLower s)) = none →
            (∀ c, fz s = some c →
              get_country_code_for_location cn ct fz s = .single c) ∧
            (fz s = none →
              get_country_code_for_location cn ct fz s = .noMatch))))) := by
  refine ⟨rfl, rfl, fun hs => ⟨?_, fun hreg => ⟨?_, fun hcn => ⟨?_, fun hct =>
    ⟨?_, fun hfz => ?_⟩⟩⟩⟩⟩
  · intro ms hms
    unfold get_country_code_for_location
    rw [if_neg hs, hms]
  · intro c hc
    unfold get_country_code_for_location
    rw [if_neg hs, hreg, hc]
  · intro c hc
    unfold get_country_code_for_location
    rw [if_neg hs, hreg, hcn, hc]
  · intro c hc
    unfold get_country_code_for_location
    rw [if_neg hs, hreg, hcn, hct, hc]
  · unfold get_country_code_for_location
    rw [if_neg hs, hreg, hcn, hct, hfz]

/-- Witness for C6: " Europe " folds to the region key "europe" and
resolves to the full fixed European member list; non-string input
resolves to nothing. -/
theorem claim_C6_resolver_cascade_witness :
    get_country_code_for_location demoCountryNames noTable noTable " Europe " =
      .region EUROPEAN_COUNTRIES ∧
    get_country_code_for_location_opt demoCountryNames noTable noTable none = .noMatch :=
  ⟨((claim_C6_resolver_cascade demoCountryNames noTable noTable " Europe ").2.2
      (by decide)).1 EUROPEAN_COUNTRIES (by decide),
   (claim_C6_resolver_cascade demoCountryNames noTable noTable " Europe ").1⟩

/-! ## C5: entity accumulation happens only for mentioned countries
different from the source -/

/-- Occurrence count of a string in a list (the accumulation the entity
counter performs per occurrence). -/
def countOcc (x : String) : List String → Nat
  | [] => 0
  | y :: ys => (if y = x then 1 else 0) + countOcc x ys

lemma get_bump (c : CMap) (k x : String) :
    CMap.get (c.bump k) x = if k = x then CMap.get c x + 1 else CMap.get c x := by
  induction c with
  | nil =>
    simp only [CMap.bump, CMap.get]
    by_cases h : k = x
    · rw [if_pos h, alookup_cons, if_pos h]
      simp [alookup]
    · rw [if_neg h, alookup_cons, if_neg h]
  | cons hd tl ih =>
    rcases hd with ⟨k', v⟩
    simp only [CMap.bump]
    by_cases hk : k' = k
    · rw [if_pos hk]
      simp only [CMap.get]
      rw [alookup_cons, alookup_cons]
      by_cases hx : k' = x
      · rw [if_pos hx, if_pos hx, if_pos (hk ▸ hx)]
        simp
      · rw [if_neg hx, if_neg hx, if_neg (fun h => hx (hk.trans h))]
    · rw [if_neg hk]
      simp only [CMap.get]
      rw [alookup_cons, alookup_cons]
      by_cases hx : k' = x
      · rw [if_pos hx, if_pos hx, if_neg (fun h => hk (hx.trans h.symm))]
      · rw [if_neg hx, if_neg hx]
        exact ih

lemma get2_bump2 (nm : NMap) (a b x y : String) :
    NMap.get2 (nm.bump2 a b) x y =
      if a = x ∧ b = y then NMap.get2 nm x y + 1 else NMap.get2 nm x y := by
  induction nm with
  | nil =>
    simp only [NMap.bump2, NMap.get2]
    rw [alookup_cons]
    by_cases hx : a = x
    · rw [if_pos hx]
      by_cases hy : b = y
      · rw [if_pos ⟨hx, hy⟩]
        simp [CMap.get, alookup, hy]
      · rw [if_neg (fun h => hy h.2)]
        simp [CMap.get, alookup, hy]
    · rw [if_neg hx, if_neg (fun h => hx h.1)]
  | cons hd tl ih =>
    rcases hd with ⟨k, c⟩
    simp only [NMap.bump2]
    by_cases hk : k = a
    · rw [if_pos hk]
      simp only [NMap.get2]
      rw [alookup_cons, alookup_cons]
      by_cases hx : k = x
      · rw [if_pos hx, if_pos hx]
        simp only [Option.getD_some]
        rw [get_bump]
        by_cases hy : b = y
        · rw [if_pos hy, if_pos ⟨hk ▸ hx, hy⟩]
        · rw [if_neg hy, if_neg (fun h => hy h.2)]
      · rw [if_neg hx, if_neg hx, if_neg (fun h => hx (by rw [hk]; exact h.1))]
    · rw [if_neg hk]
      simp only [NMap.get2]
      rw [alookup_cons, alookup_cons]
      by_cases hx : k = x
      · rw [if_pos hx, if_pos hx, if_neg (fun h => hk (hx.trans h.1.symm))]
      · rw [if_neg hx, if_neg hx]
        exact ih

lemma nerCountStep_cre (t src : String) (st : AggState) (e : String) :
    (nerCountStep t src st e).country_related_entities = st.country_related_entities := by
  unfold nerCountStep
  split <;> rfl

lemma nerCountLocStep_cre (t : String) (st : AggState) (le : String × String) :
    (nerCountLocStep t st le).country_related_entities = st.country_related_entities := by
  unfold nerCountLocStep
  split <;> rfl

lemma mentionStep_cre (src : String) (st : AggState) (m : String) :
    (mentionStep src st m).country_related_entities = st.country_related_entities := by
  unfold mentionStep
  split <;> rfl

lemma foldl_cre_eq {α : Type} (f : AggState → α → AggState)
    (hf : ∀ st x, (f st x).country_related_entities = st.country_related_entities) :
    ∀ (l : List α) (st : AggState),
      (l.foldl f st).country_related_entities = st.country_related_entities := by
  intro l
  induction l with
  | nil => intro st; rfl
  | cons x xs ih => intro st; rw [List.foldl_cons, ih, hf]

lemma get2_foldl_bump2_row (m : String) :
    ∀ (others : List String) (nm : NMap) (e : String),
      NMap.get2 (others.foldl (fun nm x => nm.bump2 m x) nm) m e =
        NMap.get2 nm m e + countOcc e others := by
  intro others
  induction others with
  | nil => intro nm e; rfl
  | cons x xs ih =>
    intro nm e
    rw [List.foldl_cons, ih, get2_bump2]
    by_cases hx : x = e
    · rw [if_pos ⟨rfl, hx⟩]
      simp only [countOcc, if_pos hx]
      omega
    · rw [if_neg (fun h => hx h.2)]
      simp only [countOcc, if_neg hx]
      omega

lemma get2_foldl_bump2_other {mr m : String} (h : mr ≠ m) :
    ∀ (others : List String) (nm : NMap) (e : String),
      NMap.get2 (others.foldl (fun nm x => nm.bump2 mr x) nm) m e =
        NMap.get2 nm m e := by
  intro others
  induction others with
  | nil => intro nm e; rfl
  | cons x xs ih =>
    intro nm e
    rw [List.foldl_cons, ih, get2_bump2, if_neg (fun hc => h hc.1)]

lemma entityStep_get2_self {src m : String} (hms : m ≠ src) (others : List String)
    (st : AggState) (e : String) :
    NMap.get2 (entityStep src others st m).country_related_entities m e =
      NMap.get2 st.country_related_entities m e + countOcc e others := by
  unfold entityStep
  rw [if_pos hms]
  exact get2_foldl_bump2_row m others _ e

lemma entityStep_get2_other {src mr m : String} (h : mr ≠ m) (others : List String)
    (st : AggState) (e : String) :
    NMap.get2 (entityStep src others st mr).country_related_entities m e =
      NMap.get2 st.country_related_entities m e := by
  unfold entityStep
  split
  · exact get2_foldl_bump2_other h others _ e
  · rfl

lemma foldl_entityStep_notmem (src : String) (others : List String) (m : String) :
    ∀ (l : List String), m ∉ l → ∀ (st : AggState) (e : String),
      NMap.get2 (l.foldl (entityStep src others) st).country_related_entities m e =
        NMap.get2 st.country_related_entities m e := by
  intro l
  induction l with
  | nil => intro _ st e; rfl
  | cons x xs ih =>
    intro hm st e
    rw [List.foldl_cons,
      ih (fun h => hm (List.mem_cons_of_mem _ h)) _ e]
    exact entityStep_get2_other
      (fun hxm => hm (by rw [← hxm]; exact List.mem_cons_self _ _)) others st e

lemma foldl_entityStep_mem (src : String) (others : List String) :
    ∀ (l : List String), l.Nodup → ∀ (st : AggState) (m e : String), m ∈ l → m ≠ src →
      NMap.get2 (l.foldl (entityStep src others) st).country_related_entities m e =
        NMap.get2 st.country_related_entities m e + countOcc e others := by
  intro l
  induction l with
  | nil =>
    intro _ st m e hm
    cases hm
  | cons x xs ih =>
    intro hnd st m e hm hms
    rw [List.nodup_cons] at hnd
    rw [List.foldl_cons]
    rcases List.mem_cons.mp hm with hxm | hm2
    · rw [foldl_entityStep_notmem src others m xs (by rw [hxm]; exact hnd.1) _ e,
        ← hxm]
      exact entityStep_get2_self hms others st e
    · have hxm : x ≠ m := fun h => hnd.1 (by rw [h]; exact hm2)
      rw [ih hnd.2 _ m e hm2 hms, entityStep_get2_other hxm others st e]

/-- Counterexample for C5: an article from FRA whose mentioned-country set
is exactly {FRA} (via LOC "France") and whose non-LOC entities are
["NATO"]; the source country is resolved, FRA is in the mentioned set,
yet "NATO" is not accumulated into FRA's top-entity counter (the loop
skips mentioned countries equal to the source). -/
theorem claim_C5_counterexample :
    alookup (pyLower selfMentionArticle.providerId) demoPmap = some "FRA" ∧
    mentionedCountryCodes (process_article_entities demoResolver
      selfMentionArticle.ner).1 = ["FRA"] ∧
    (process_article_entities demoResolver selfMentionArticle.ner).2 = ["NATO"] ∧
    NMap.get2 (processArticle demoResolver demoPmap "X" initAggState
      selfMentionArticle).country_related_entities "FRA" "NATO" = 0 := by
  decide

/-- C5 (amended): for every article with a resolved (non-empty) source
country, and for every country in the article's deduplicated
mentioned-country set **other than the source country**, each of the
article's non-LOC entity texts is accumulated into that country's
top-entity frequency table, once per occurrence. -/
theorem claim_C5_amended_entities_accumulated (r : String → LocResolution)
    (pmap : List (String × String)) (topNer : String) (st : AggState) (a : Article)
    (src m e : String)
    (hsrc : alookup (pyLower a.providerId) pmap = some src) (hne : src ≠ "")
    (hm : m ∈ mentionedCountryCodes (process_article_entities r a.ner).1)
    (hms : m ≠ src) :
    NMap.get2 (processArticle r pmap topNer st a).country_related_entities m e =
      NMap.get2 st.country_related_entities m e +
        countOcc e (process_article_entities r a.ner).2 := by
  have hlocs : (process_article_entities r a.ner).1 ≠ [] := by
    intro h0
    rw [h0] at hm
    simp [mentionedCountryCodes] at hm
  unfold processArticle
  split
  · next heq =>
    rw [heq] at hsrc
    cases hsrc
  · next src' heq =>
    have hss : src = src' := by
      rw [heq] at hsrc
      injection hsrc with hs
      exact hs.symm
    subst hss
    rw [if_neg hne, if_neg hlocs]
    rw [foldl_entityStep_mem src _ (mentionedCountryCodes _)
      (List.nodup_dedup _) _ m e hm hms]
    congr 1
    rw [foldl_cre_eq _ (mentionStep_cre src),
      foldl_cre_eq _ (nerCountLocStep_cre topNer),
      foldl_cre_eq _ (nerCountStep_cre topNer src)]

/-- Witness for the amended C5 on the cross-mention article: "NATO" is
accumulated once for DEU. -/
theorem claim_C5_amended_entities_accumulated_witness :
    NMap.get2 (processArticle demoResolver demoPmap "X" initAggState
      crossMentionArticle).country_related_entities "DEU" "NATO" =
      NMap.get2 initAggState.country_related_entities "DEU" "NATO" +
        countOcc "NATO" (process_article_entities demoResolver
          crossMentionArticle.ner).2 :=
  claim_C5_amended_entities_accumulated demoResolver demoPmap "X" initAggState
    crossMentionArticle "FRA" "DEU" "NATO" (by decide) (by decide) (by decide) (by decide)

/-! ## C3: the import distribution sums to 1 -/

/-- Sum of a counter over a list of codes. -/
def sumOver (codes : List String) (m : CMap) : Nat :=
  (codes.map (fun c => m.get c)).sum

lemma sumOver_empty : ∀ (codes : List String), sumOver codes [] = 0 := by
  intro codes
  induction codes with
  | nil => rfl
  | cons c cs ih =>
    simp only [sumOver, List.map_cons, List.sum_cons] at ih ⊢
    rw [ih]
    rfl

lemma sumOver_bump_notmem (k : String) (m : CMap) :
    ∀ (codes : List String), k ∉ codes → sumOver codes (m.bump k) = sumOver codes m := by
  intro codes
  induction codes with
  | nil => intro _; rfl
  | cons c cs ih =>
    intro hk
    simp only [sumOver, List.map_cons, List.sum_cons]
    rw [get_bump, if_neg (fun h => hk (by rw [h]; exact List.mem_cons_self _ _))]
    have hrec := ih (fun h => hk (List.mem_cons_of_mem _ h))
    simp only [sumOver] at hrec
    rw [hrec]

lemma sumOver_bump_mem (k : String) (m : CMap) :
    ∀ (codes : List String), codes.Nodup → k ∈ codes →
      sumOver codes (m.bump k) = sumOver codes m + 1 := by
  intro codes
  induction codes with
  | nil =>
    intro _ hk
    cases hk
  | cons c cs ih =>
    intro hnd hk
    rw [List.nodup_cons] at hnd
    simp only [sumOver, List.map_cons, List.sum_cons]
    rcases List.mem_cons.mp hk with hkc | hkcs
    · rw [get_bump, if_pos hkc]
      have hnotin : k ∉ cs := by rw [hkc]; exact hnd.1
      have hrec := sumOver_bump_notmem k m cs hnotin
      simp only [sumOver] at hrec
      rw [hrec]
      omega
    · have hkc : k ≠ c := fun h => hnd.1 (by rw [← h]; exact hkcs)
      rw [get_bump, if_neg hkc]
      have hrec := ih hnd.2 hkcs
      simp only [sumOver] at hrec
      rw [hrec]
      omega

lemma nerCountStep_imports (t src : String) (st : AggState) (e : String) :
    (nerCountStep t src st e).import_counts = st.import_counts ∧
    (nerCountStep t src st e).total_imports = st.total_imports := by
  unfold nerCountStep
  split <;> exact ⟨rfl, rfl⟩

lemma nerCountLocStep_imports (t : String) (st : AggState) (le : String × String) :
    (nerCountLocStep t st le).import_counts = st.import_counts ∧
    (nerCountLocStep t st le).total_imports = st.total_imports := by
  unfold nerCountLocStep
  split <;> exact ⟨rfl, rfl⟩

lemma entityStep_imports (src : String) (others : List String) (st : AggState) (m : String) :
    (entityStep src others st m).import_counts = st.import_counts ∧
    (entityStep src others st m).total_imports = st.total_imports := by
  unfold entityStep
  split <;> exact ⟨rfl, rfl⟩

lemma foldl_imports_eq {α : Type} (f : AggState → α → AggState)
    (hf : ∀ st x, (f st x).import_counts = st.import_counts ∧
                  (f st x).total_imports = st.total_imports) :
    ∀ (l : List α) (st : AggState),
      (l.foldl f st).import_counts = st.import_counts ∧
      (l.foldl f st).total_imports = st.total_imports := by
  intro l
  induction l with
  | nil => intro st; exact ⟨rfl, rfl⟩
  | cons x xs ih =>
    intro st
    rw [List.foldl_cons]
    rcases ih (f st x) with ⟨h1, h2⟩
    rcases hf st x with ⟨h3, h4⟩
    exact ⟨h1.trans h3, h2.trans h4⟩

lemma foldl_preserve_mem {α β : Type} {P : α → Prop} (f : α → β → α) :
    ∀ (l : List β), (∀ x ∈ l, ∀ s, P s → P (f s x)) → ∀ s, P s → P (l.foldl f s) := by
  intro l
  induction l with
  | nil => intro _ s hs; exact hs
  | cons x xs ih =>
    intro hstep s hs
    rw [List.foldl_cons]
    exact ih (fun y hy s' hs' => hstep y (List.mem_cons_of_mem _ hy) s' hs')
      _ (hstep x (List.mem_cons_self _ _) s hs)

lemma mentionStep_preserves_sum {codes : List String} (hnd : codes.Nodup)
    (src : String) {m : String} (hm : m ∈ codes) (st : AggState)
    (h : sumOver codes st.import_counts = st.total_imports) :
    sumOver codes (mentionStep src st m).import_counts =
      (mentionStep src st m).total_imports := by
  unfold mentionStep
  split
  · show sumOver codes (st.import_counts.bump m) = st.total_imports + 1
    rw [sumOver_bump_mem m st.import_counts codes hnd hm, h]
  · exact h

lemma processArticle_preserves_sum (r : String → LocResolution)
    (pmap : List (String × String)) (topNer : String) {codes : List String}
    (hnd : codes.Nodup) (a : Article)
    (hres : ∀ p ∈ (process_article_entities r a.ner).1, p.1 ∈ codes)
    (st : AggState)
    (h : sumOver codes st.import_counts = st.total_imports) :
    sumOver codes (processArticle r pmap topNer st a).import_counts =
      (processArticle r pmap topNer st a).total_imports := by
  unfold processArticle
  split
  · exact h
  · split
    · exact h
    · split
      · rw [(foldl_imports_eq _ (nerCountLocStep_imports topNer) _ _).1,
          (foldl_imports_eq _ (nerCountStep_imports topNer _) _ _).1,
          (foldl_imports_eq _ (nerCountLocStep_imports topNer) _ _).2,
          (foldl_imports_eq _ (nerCountStep_imports topNer _) _ _).2]
        exact h
      · have hmem : ∀ m ∈ mentionedCountryCodes (process_article_entities r a.ner).1,
            m ∈ codes := by
          intro m hm
          rcases List.mem_map.mp (List.mem_dedup.mp hm) with ⟨p, hp, rfl⟩
          exact hres p hp
        rw [(foldl_imports_eq _ (entityStep_imports _ _) _ _).1,
          (foldl_imports_eq _ (entityStep_imports _ _) _ _).2]
        apply foldl_preserve_mem
          (P := fun s : AggState => sumOver codes s.import_counts = s.total_imports)
        · intro x hx s hs
          exact mentionStep_preserves_sum hnd _ (hmem x hx) s hs
        · rw [(foldl_imports_eq _ (nerCountLocStep_imports topNer) _ _).1,
            (foldl_imports_eq _ (nerCountStep_imports topNer _) _ _).1,
            (foldl_imports_eq _ (nerCountLocStep_imports topNer) _ _).2,
            (foldl_imports_eq _ (nerCountStep_imports topNer _) _ _).2]
          exact h

lemma aggregate_import_sum (r : String → LocResolution) (pmap : List (String × String))
    (topNer : String) {codes : List String} (hnd : codes.Nodup) (arts : List Article)
    (hres : ∀ a ∈ arts, ∀ p ∈ (process_article_entities r a.ner).1, p.1 ∈ codes) :
    sumOver codes (aggregateArticles r pmap topNer arts).import_counts =
      (aggregateArticles r pmap topNer arts).total_imports := by
  unfold aggregateArticles
  refine foldl_preserve_mem
    (P := fun s : AggState => sumOver codes s.import_counts = s.total_imports)
    (processArticle r pmap topNer) arts ?_ initAggState (sumOver_empty codes)
  intro a ha s hs
  exact processArticle_preserves_sum r pmap topNer hnd a (hres a ha) s hs

lemma sum_map_div {α : Type} (l : List α) (f : α → ℚ) (T : ℚ) :
    (l.map (fun x => f x / T)).sum = (l.map f).sum / T := by
  induction l with
  | nil => simp
  | cons x xs ih => simp [List.map_cons, List.sum_cons, ih, add_div]

lemma sum_map_natCast (l : List String) (f : String → Nat) :
    (l.map (fun c => (f c : ℚ))).sum = ((l.map f).sum : ℚ) := by
  induction l with
  | nil => simp
  | cons x xs ih => simp [List.map_cons, List.sum_cons, ih]

/-- C3: for any processed date, if the aggregated total import-event count
is positive then the unfiltered `importData` (each country's import count
divided by the total) sums to exactly 1 over the country universe, and if
the total is zero every entry is exactly 0.  The hypothesis records that
every resolved mentioned code of the batch lies in the universe, which the
real pycountry/geonamescache tables guarantee. -/
theorem claim_C3_import_distribution (r : String → LocResolution)
    (pmap : List (String × String)) (topNer : String) (arts : List Article)
    (codes : List String) (hnd : codes.Nodup)
    (hres : ∀ a ∈ arts, ∀ p ∈ (process_article_entities r a.ner).1, p.1 ∈ codes) :
    (0 < (aggregateArticles r pmap topNer arts).total_imports →
      ((importDataOf codes (aggregateArticles r pmap topNer arts).import_counts
        (aggregateArticles r pmap topNer arts).total_imports).map Prod.snd).sum = 1) ∧
    ((aggregateArticles r pmap topNer arts).total_imports = 0 →
      ∀ p ∈ importDataOf codes (aggregateArticles r pmap topNer arts).import_counts
        (aggregateArticles r pmap topNer arts).total_imports, p.2 = 0) := by
  constructor
  · intro hpos
    unfold importDataOf
    rw [if_pos hpos, List.map_map]
    show (codes.map (fun c =>
      ((aggregateArticles r pmap topNer arts).import_counts.get c : ℚ) /
        ((aggregateArticles r pmap topNer arts).total_imports : ℚ))).sum = 1
    rw [sum_map_div, sum_map_natCast]
    have hsum := aggregate_import_sum r pmap topNer hnd arts hres
    unfold sumOver at hsum
    rw [hsum]
    exact div_self (Nat.cast_ne_zero.mpr (by omega))
  · intro h0
    unfold importDataOf
    rw [if_neg (by omega)]
    intro p hp
    rcases List.mem_map.mp hp with ⟨c, _, rfl⟩
    rfl

/-- Witness for C3 on a one-article date: FRA mentions DEU once, the total
is 1, and the unfiltered import distribution sums to 1. -/
theorem claim_C3_import_distribution_witness :
    ((importDataOf demoCodes
        (aggregateArticles demoResolver demoPmap "X" [crossMentionArticle]).import_counts
        (aggregateArticles demoResolver demoPmap "X" [crossMentionArticle]).total_imports).map
      Prod.snd).sum = 1 :=
  (claim_C3_import_distribution demoResolver demoPmap "X" [crossMentionArticle]
      demoCodes (by decide) (by decide)).1 (by decide)

/-! ## C7: the provider-count-corrected export distribution -/

lemma sum_pos_of_mem_pos {l : List ℚ} (hnn : ∀ x ∈ l, 0 ≤ x) {x : ℚ}
    (hx : x ∈ l) (hpos : 0 < x) : 0 < l.sum := by
  induction l with
  | nil => cases hx
  | cons y ys ih =>
    rw [List.sum_cons]
    rcases List.mem_cons.mp hx with he | hx2
    · have hy : 0 < y := he ▸ hpos
      have hys : 0 ≤ ys.sum :=
        List.sum_nonneg (fun z hz => hnn z (List.mem_cons_of_mem _ hz))
      linarith
    · have hy : 0 ≤ y := hnn y (List.mem_cons_self _ _)
      have hsum := ih (fun z hz => hnn z (List.mem_cons_of_mem _ hz)) hx2
      linarith

lemma exportRatios_nonneg (allCodes : List String) (ec : CMap)
    (ppc : List (String × List String)) :
    ∀ p ∈ exportRatios allCodes ec ppc, 0 ≤ p.2 := by
  intro p hp
  rcases List.mem_map.mp hp with ⟨c, _, rfl⟩
  dsimp only
  split
  · exact div_nonneg (Nat.cast_nonneg _) (Nat.cast_nonneg _)
  · exact le_refl 0

/-- C7: the export distribution follows the provider-count-corrected
scheme — each country's export count divided by its distinct-provider
count (zero when it has no providers), the resulting ratios renormalized
across all countries — and it sums to exactly 1 whenever any ratio is
positive. -/
theorem claim_C7_export_distribution (allCodes : List String) (ec : CMap)
    (ppc : List (String × List String)) :
    (∀ p ∈ exportRatios allCodes ec ppc, provCount ppc p.1 = 0 → p.2 = 0) ∧
    (∀ p ∈ exportRatios allCodes ec ppc, 0 < provCount ppc p.1 →
      p.2 = (ec.get p.1 : ℚ) / (provCount ppc p.1 : ℚ)) ∧
    ((∃ p ∈ exportRatios allCodes ec ppc, 0 < p.2) →
      ((exportDataOf allCodes ec ppc).map Prod.snd).sum = 1) := by
  refine ⟨?_, ?_, ?_⟩
  · intro p hp h0
    rcases List.mem_map.mp hp with ⟨c, _, rfl⟩
    simp only at h0 ⊢
    rw [if_neg (by omega)]
  · intro p hp hpos
    rcases List.mem_map.mp hp with ⟨c, _, rfl⟩
    simp only at hpos ⊢
    rw [if_pos hpos]
  · rintro ⟨p, hp, hppos⟩
    have hT : 0 < totalExportRatio allCodes ec ppc := by
      unfold totalExportRatio
      refine sum_pos_of_mem_pos ?_ (List.mem_map_of_mem Prod.snd hp) hppos
      intro x hx
      rcases List.mem_map.mp hx with ⟨q, hq, rfl⟩
      exact exportRatios_nonneg allCodes ec ppc q hq
    unfold exportDataOf
    rw [if_pos hT, List.map_map]
    show ((exportRatios allCodes ec ppc).map
      (fun q => q.2 / totalExportRatio allCodes ec ppc)).sum = 1
    rw [sum_map_div]
    show totalExportRatio allCodes ec ppc / totalExportRatio allCodes ec ppc = 1
    exact div_self (ne_of_gt hT)

/-- Witness for C7: one country with one provider and two export events,
ratio 2/1, renormalized distribution sums to 1. -/
theorem claim_C7_export_distribution_witness :
    ((exportDataOf demoCodes [("FRA", 2)] [("FRA", ["lemonde"])]).map Prod.snd).sum = 1 := by
  refine (claim_C7_export_distribution demoCodes [("FRA", 2)] [("FRA", ["lemonde"])]).2.2
    ⟨_, List.mem_map_of_mem _ (show "FRA" ∈ demoCodes by decide), ?_⟩
  show (0 : ℚ) <
    if 0 < provCount [("FRA", ["lemonde"])] "FRA" then
      (CMap.get [("FRA", 2)] "FRA" : ℚ) / (provCount [("FRA", ["lemonde"])] "FRA" : ℚ)
    else 0
  have hget : CMap.get [("FRA", 2)] "FRA" = 2 := by decide
  have hprov : provCount [("FRA", ["lemonde"])] "FRA" = 1 := by decide
  rw [if_pos (by decide), hget, hprov]
  norm_num

/-! ## C9: zero denominators always yield all-zero distributions -/

lemma sum_zero_of_nonneg {l : List ℚ} (hnn : ∀ x ∈ l, 0 ≤ x) (h0 : l.sum = 0) :
    ∀ x ∈ l, x = 0 := by
  induction l with
  | nil =>
    intro x hx
    cases hx
  | cons y ys ih =>
    rw [List.sum_cons] at h0
    have hy : 0 ≤ y := hnn y (List.mem_cons_self _ _)
    have hys : 0 ≤ ys.sum :=
      List.sum_nonneg (fun z hz => hnn z (List.mem_cons_of_mem _ hz))
    have hy0 : y = 0 := by linarith
    have hsum0 : ys.sum = 0 := by linarith
    intro x hx
    rcases List.mem_cons.mp hx with he | hx2
    · rw [he, hy0]
    · exact ih (fun z hz => hnn z (List.mem_cons_of_mem _ hz)) hsum0 x hx2

lemma coveredByRawFor_nonneg (covMat : NMap) (ppc : List (String × List String))
    (country : String) : ∀ p ∈ coveredByRawFor covMat ppc country, 0 ≤ p.2 := by
  intro p hp
  rcases List.mem_map.mp hp with ⟨bc, _, rfl⟩
  exact div_nonneg (Nat.cast_nonneg _) (Nat.cast_nonneg _)

lemma coveringRawFor_nonneg (covnMat : NMap) (ppc : List (String × List String))
    (country : String) : ∀ p ∈ coveringRawFor covnMat ppc country, 0 ≤ p.2 := by
  intro p hp
  rcases List.mem_map.mp hp with ⟨bc, _, rfl⟩
  exact div_nonneg (Nat.cast_nonneg _) (Nat.cast_nonneg _)

lemma totalCoverageFor_nonneg (covMat : NMap) (ppc : List (String × List String))
    (country : String) : 0 ≤ totalCoverageFor covMat ppc country := by
  refine List.sum_nonneg ?_
  intro x hx
  rcases List.mem_map.mp hx with ⟨q, hq, rfl⟩
  exact coveredByRawFor_nonneg covMat ppc country q hq

lemma totalCoveringFor_nonneg (covnMat : NMap) (ppc : List (String × List String))
    (country : String) : 0 ≤ totalCoveringFor covnMat ppc country := by
  refine List.sum_nonneg ?_
  intro x hx
  rcases List.mem_map.mp hx with ⟨q, hq, rfl⟩
  exact coveringRawFor_nonneg covnMat ppc country q hq

lemma addProvider_entries_nonempty {m : List (String × List String)}
    (h : ∀ q ∈ m, q.2 ≠ []) (c p : String) :
    ∀ q ∈ addProvider m c p, q.2 ≠ [] := by
  induction m with
  | nil =>
    intro q hq
    rcases List.mem_cons.mp hq with he | he
    · rw [he]; simp
    · cases he
  | cons hd tl ih =>
    rcases hd with ⟨c', ps⟩
    intro q hq
    simp only [addProvider] at hq
    by_cases hc : c' = c
    · rw [if_pos hc] at hq
      rcases List.mem_cons.mp hq with he | he
      · rw [he]
        have hps : ps ≠ [] := h (c', ps) (List.mem_cons_self _ _)
        dsimp only
        split
        · exact hps
        · simp
      · exact h q (List.mem_cons_of_mem _ he)
    · rw [if_neg hc] at hq
      rcases List.mem_cons.mp hq with he | he
      · rw [he]
        exact h (c', ps) (List.mem_cons_self _ _)
      · exact ih (fun q' hq' => h q' (List.mem_cons_of_mem _ hq')) q he

lemma providersPerCountry_entries_nonempty (pmap : List (String × String))
    (arts : List Article) :
    ∀ q ∈ providersPerCountry pmap arts, q.2 ≠ [] := by
  unfold providersPerCountry
  refine foldl_preserve
    (P := fun m : List (String × List String) => ∀ q ∈ m, q.2 ≠ []) _ ?_ arts [] ?_
  · intro m a hm
    dsimp only
    split
    · exact hm
    · split
      · exact hm
      · exact addProvider_entries_nonempty hm _ _
  · intro q hq
    cases hq

/-- C9: every normalization of `process_single_date` and
`process_foreign_press_data` is guarded so that a zero denominator yields
an all-zero distribution and no division by zero is performed: zero total
imports, a zero export-ratio total, a zero dominant-entity-ratio total, a
zero per-country coverage or covering total, and a zero global ranking
total each force every produced value to 0, and the provider-count
denominator used by the foreign-press rows is always at least 1. -/
theorem claim_C9_zero_denominator_all_zero :
    (∀ (allCodes : List String) (ic : CMap),
      ∀ p ∈ importDataOf allCodes ic 0, p.2 = 0) ∧
    (∀ (allCodes : List String) (ec : CMap) (ppc : List (String × List String)),
      totalExportRatio allCodes ec ppc = 0 →
      ∀ p ∈ exportDataOf allCodes ec ppc, p.2 = 0) ∧
    (∀ (allCodes : List String) (nc : CMap) (ppc : List (String × List String)),
      totalNerRatio allCodes nc ppc = 0 →
      ∀ p ∈ nerDataOf allCodes nc ppc, p.2 = 0) ∧
    (∀ (pmap : List (String × String)) (arts : List Article) (c : String),
      1 ≤ provCountD1 (providersPerCountry pmap arts) c) ∧
    (∀ (covMat : NMap) (ppc : List (String × List String)) (country : String),
      totalCoverageFor covMat ppc country = 0 →
      ∀ p ∈ coveredByFor covMat ppc country, p.2 = 0) ∧
    (∀ (covnMat : NMap) (ppc : List (String × List String)) (country : String),
      totalCoveringFor covnMat ppc country = 0 →
      ∀ p ∈ coveringFor covnMat ppc country, p.2 = 0) ∧
    (∀ (covMat : NMap) (ppc : List (String × List String)) (allCodes : List String),
      totalFeaturedActivity (countryCoverageRaw covMat ppc allCodes) = 0 →
      ∀ p ∈ renormCoverage (countryCoverageRaw covMat ppc allCodes),
        p.2.totalCoverage = 0) ∧
    (∀ (covnMat : NMap) (ppc : List (String × List String)) (allCodes : List String),
      totalCoveringActivity (countryCoveringRaw covnMat ppc allCodes) = 0 →
      ∀ p ∈ renormCovering (countryCoveringRaw covnMat ppc allCodes),
        p.2.totalCovering = 0) := by
  refine ⟨?_, ?_, ?_, ?_, ?_, ?_, ?_, ?_⟩
  · intro allCodes ic p hp
    unfold importDataOf at hp
    rw [if_neg (by omega)] at hp
    rcases List.mem_map.mp hp with ⟨c, _, rfl⟩
    rfl
  · intro allCodes ec ppc h0 p hp
    unfold exportDataOf at hp
    rw [h0, if_neg (lt_irrefl 0)] at hp
    rcases List.mem_map.mp hp with ⟨c, _, rfl⟩
    rfl
  · intro allCodes nc ppc h0 p hp
    unfold nerDataOf at hp
    rw [h0, if_neg (lt_irrefl 0)] at hp
    rcases List.mem_map.mp hp with ⟨c, _, rfl⟩
    rfl
  · intro pmap arts c
    unfold provCountD1
    cases halo : alookup c (providersPerCountry pmap arts) with
    | none => exact le_refl 1
    | some ps =>
      have hne : ps ≠ [] :=
        providersPerCountry_entries_nonempty pmap arts (c, ps) (alookup_mem halo)
      exact List.length_pos.mpr hne
  · intro covMat ppc country h0 p hp
    unfold coveredByFor at hp
    rw [h0, if_neg (lt_irrefl 0)] at hp
    refine sum_zero_of_nonneg ?_ h0 p.2 (List.mem_map_of_mem Prod.snd hp)
    intro x hx
    rcases List.mem_map.mp hx with ⟨q, hq, rfl⟩
    exact coveredByRawFor_nonneg covMat ppc country q hq
  · intro covnMat ppc country h0 p hp
    unfold coveringFor at hp
    rw [h0, if_neg (lt_irrefl 0)] at hp
    refine sum_zero_of_nonneg ?_ h0 p.2 (List.mem_map_of_mem Prod.snd hp)
    intro x hx
    rcases List.mem_map.mp hx with ⟨q, hq, rfl⟩
    exact coveringRawFor_nonneg covnMat ppc country q hq
  · intro covMat ppc allCodes h0 p hp
    unfold renormCoverage at hp
    rw [h0, if_neg (lt_irrefl 0)] at hp
    refine sum_zero_of_nonneg ?_ h0 p.2.totalCoverage
      (List.mem_map_of_mem (fun q => q.2.totalCoverage) hp)
    intro x hx
    rcases List.mem_map.mp hx with ⟨q, hq, rfl⟩
    rcases List.mem_map.mp hq with ⟨c, _, rfl⟩
    exact totalCoverageFor_nonneg covMat ppc c
  · intro covnMat ppc allCodes h0 p hp
    unfold renormCovering at hp
    rw [h0, if_neg (lt_irrefl 0)] at hp
    refine sum_zero_of_nonneg ?_ h0 p.2.totalCovering
      (List.mem_map_of_mem (fun q => q.2.totalCovering) hp)
    intro x hx
    rcases List.mem_map.mp hx with ⟨q, hq, rfl⟩
    rcases List.mem_map.mp hq with ⟨c, _, rfl⟩
    exact totalCoveringFor_nonneg covnMat ppc c

/-- Witness for C9: an entry of the empty-date import distribution with a
zero total is zero, and the default provider denominator of the demo date
is at least 1. -/
theorem claim_C9_zero_denominator_all_zero_witness :
    (("FRA", (0 : ℚ)) : String × ℚ).2 = 0 ∧
    1 ≤ provCountD1 (providersPerCountry demoPmap [crossMentionArticle]) "FRA" :=
  ⟨claim_C9_zero_denominator_all_zero.1 ["FRA"] [] ("FRA", 0) (by decide),
   claim_C9_zero_denominator_all_zero.2.2.2.1 demoPmap [crossMentionArticle] "FRA"⟩
